import Mathlib

/-!
Shallow embedding of the watch-mode development daemon of this repository
(`src/tools/watch.ts`, canonical variant; the near-duplicate variants in
`src/unnamed/part_001` agree on everything modelled here unless noted).

The daemon watches library sources, debounces change events, and drives a
build → unpublish → publish pipeline against a local Verdaccio registry.
External commands (`execSync`, `spawn`, HTTP polling) are modelled as
oracles: an `ExecResult` for each command outcome, a response function
`Nat → Option Nat` for the health-check polls, and a `SpawnEvent` for the
registry spawn.  Console output is modelled as lists of log lines; the
wall-clock `formatTime()` prefixes of the original log lines are omitted.
-/

namespace Watch

/-! ### Boolean string primitives (JS `String.prototype.includes`) -/

/-- `isPrefixOfCL p l`: the char list `p` is a prefix of `l`. -/
def isPrefixOfCL : List Char → List Char → Bool
  | [], _ => true
  | _ :: _, [] => false
  | a :: as, b :: bs => a == b && isPrefixOfCL as bs

/-- `isInfixOfCL p l`: the char list `p` occurs contiguously inside `l`.
This is the semantics of JavaScript's `String.prototype.includes`. -/
def isInfixOfCL (p : List Char) : List Char → Bool
  | [] => isPrefixOfCL p []
  | c :: cs => isPrefixOfCL p (c :: cs) || isInfixOfCL p cs

/-- JS `s.includes(pat)` on strings. -/
def jsIncludes (s pat : String) : Bool :=
  isInfixOfCL pat.data s.data

/-! ### The tiny regex fragment used by `shouldIgnore`

`shouldIgnore` builds `new RegExp(pattern.replace('*', '.*'))` and calls
`regex.test(path)`.  The patterns involved only produce regexes made of
literal characters, `.` and `.*`, matched unanchored (`test` searches all
positions).  The regexes are built without the `s` (dotAll) flag, so `.`
matches any single character except a line terminator. -/

/-- The ECMAScript line terminators: LF, CR, U+2028 and U+2029.  Without
the `s` flag, the regex `.` matches every character except these. -/
def isLineTerminator (c : Char) : Bool :=
  c = '\n' || c = '\r' || c = '\u2028' || c = '\u2029'

inductive RAtom where
  | anyChar
  | lit (c : Char)
deriving DecidableEq, Repr

inductive RTok where
  | atom (a : RAtom)
  | star (a : RAtom)
deriving DecidableEq, Repr

/-- In a JS regex without the `s` flag, `.` matches any character except
a line terminator; other characters (in the patterns at hand) match
themselves. -/
def atomOf (c : Char) : RAtom :=
  if c = '.' then .anyChar else .lit c

def amatch (a : RAtom) (c : Char) : Bool :=
  match a with
  | .anyChar => !(isLineTerminator c)
  | .lit x => x == c

/-- Parse a regex source string into tokens: a character followed by `*`
becomes a starred atom, any other character a plain atom. -/
def parseRegex : List Char → List RTok
  | [] => []
  | [c] => [.atom (atomOf c)]
  | c :: c' :: rest =>
      if c' = '*' then .star (atomOf c) :: parseRegex rest
      else .atom (atomOf c) :: parseRegex (c' :: rest)

/-- `starMatch a k s`: match `a*` against a prefix of `s`, then continue
with `k` on the remainder (all possible split points are tried). -/
def starMatch (a : RAtom) (k : List Char → Bool) : List Char → Bool
  | [] => k []
  | c :: cs => k (c :: cs) || (amatch a c && starMatch a k cs)

/-- Match a token list against a prefix of the character list. -/
def matchHere : List RTok → List Char → Bool
  | [], _ => true
  | .atom _ :: _, [] => false
  | .atom a :: ts, c :: cs => amatch a c && matchHere ts cs
  | .star a :: ts, s => starMatch a (matchHere ts) s

/-- JS `regex.test(s)`: the token list matches starting at some position. -/
def regexSearch (ts : List RTok) : List Char → Bool
  | [] => matchHere ts []
  | c :: cs => matchHere ts (c :: cs) || regexSearch ts cs

/-- JS `pattern.replace('*', '.*')`: replace the first `*` by `.*`. -/
def replaceFirstStar : List Char → List Char
  | [] => []
  | c :: rest =>
      if c = '*' then '.' :: '*' :: rest
      else c :: replaceFirstStar rest

/-! ### Pattern matcher (`IGNORED_PATTERNS`, `shouldIgnore`) -/

def IGNORED_PATTERNS : List String :=
  ["node_modules", "dist", ".git", ".nx", "tmp", ".angular", ".cache",
   "*.spec.ts", "*.spec.js", "*.test.ts", "*.test.js", ".DS_Store"]

/-- `shouldIgnore` from `src/tools/watch.ts:27-35`: for each pattern, if it
contains `*`, test the path against the regex obtained by replacing the
first `*` with `.*`; otherwise test substring containment. -/
def shouldIgnore (path : String) : Bool :=
  IGNORED_PATTERNS.any fun pattern =>
    if pattern.data.contains '*' then
      regexSearch (parseRegex (replaceFirstStar pattern.data)) path.data
    else
      jsIncludes path pattern

/-- The literal (wildcard-free) rules of `IGNORED_PATTERNS`, in order. -/
def literalRules : List String :=
  ["node_modules", "dist", ".git", ".nx", "tmp", ".angular", ".cache", ".DS_Store"]

/-- The single-wildcard rules of `IGNORED_PATTERNS`. -/
def wildcardRules : List String :=
  ["*.spec.ts", "*.spec.js", "*.test.ts", "*.test.js"]

/-- A path contains some literal rule as a substring. -/
def literalHit (p : String) : Bool :=
  literalRules.any fun pat => jsIncludes p pat

/-- A path matches the regex translation of some wildcard rule (this is
what the code actually tests: `*` becomes `.*` and the remaining `.`
characters of the rule keep their regex meaning of "any character other
than a line terminator"). -/
def wildcardRegexHit (p : String) : Bool :=
  wildcardRules.any fun pat =>
    regexSearch (parseRegex (replaceFirstStar pat.data)) p.data

/-- Spec-side matcher, following the spec's words: a single-wildcard glob
(`*` matches any character sequence, every other character — including
`.` — matches only itself), applied as a substring-anchored match over
the path.  This is the most permissive literal-dot reading of "a path
matching a configured single-wildcard pattern". -/
def specWildcardMatch (pat path : List Char) : Bool :=
  let pre := pat.takeWhile fun c => c != '*'
  let suf := (pat.dropWhile fun c => c != '*').drop 1
  (List.range (path.length + 1)).any fun i =>
    isPrefixOfCL pre (path.drop i) && isInfixOfCL suf ((path.drop i).drop pre.length)

/-- A path matches some wildcard rule read as a glob (spec-side). -/
def specGlobHit (p : String) : Bool :=
  wildcardRules.any fun pat => specWildcardMatch pat.data p.data

/-! ### External command outcomes

`execSync` either returns captured output or throws an error object
carrying `message`, `code`, `stdout` and `stderr` (the fields the daemon
inspects).  A timeout is just a particular failing `ExecError`. -/

structure ExecError where
  message : String
  code : Int
  stdout : String
  stderr : String
deriving DecidableEq, Repr

abbrev ExecResult := Except ExecError String

instance : DecidableEq ExecResult := fun a b =>
  match a, b with
  | .ok x, .ok y =>
      if h : x = y then .isTrue (by rw [h]) else .isFalse (by intro hc; cases hc; exact h rfl)
  | .ok _, .error _ => .isFalse (by intro hc; cases hc)
  | .error _, .ok _ => .isFalse (by intro hc; cases hc)
  | .error x, .error y =>
      if h : x = y then .isTrue (by rw [h]) else .isFalse (by intro hc; cases hc; exact h rfl)

/-- The outcomes of the three external commands one pipeline run invokes. -/
structure PipelineEnv where
  build : ExecResult
  unpublish : ExecResult
  publish : ExecResult
deriving DecidableEq

/-! ### Pipeline steps (`buildLibraries`, `cleanRegistry`, `publishPackages`) -/

/-- `buildLibraries` from `src/tools/watch.ts:196-209`: logs, runs the nx
build, and on failure logs the error and rethrows `Build failed: <msg>`.
Returns the emitted log lines and the thrown message, if any. -/
def buildLibraries (r : ExecResult) : List String × Option String :=
  match r with
  | .ok _ =>
      (["🔨 Building libraries...", "✅ Build completed"], none)
  | .error e =>
      (["🔨 Building libraries...", "❌ Build failed: " ++ e.message],
       some ("Build failed: " ++ e.message))

/-- `cleanRegistry` from `src/tools/watch.ts:149-174`: runs the nx
unpublish; every failure is caught, logged in detail, and swallowed.
Returns only log lines — this step never throws. -/
def cleanRegistry (r : ExecResult) : List String :=
  match r with
  | .ok output =>
      ["🧹 Cleaning up previous packages..."]
        ++ (if output != "" then [output] else [])
        ++ ["✅ Cleanup completed"]
  | .error e =>
      ["🧹 Cleaning up previous packages..."]
        ++ (if e.stdout != "" then ["Stdout: " ++ e.stdout] else [])
        ++ (if e.stderr != "" then ["Stderr: " ++ e.stderr] else [])
        ++ (if e.code != 0 then ["⚠️  Unpublish command exited with code " ++ toString e.code] else [])
        ++ ["📦 No previous packages to clean up (this is normal on first run)"]

/-- The benign publish-failure signature tested at
`src/tools/watch.ts:187-188`. -/
def benignPublishError (msg : String) : Bool :=
  jsIncludes msg "cannot publish over the previously published versions" ||
  jsIncludes msg "You cannot publish over"

/-- `publishPackages` from `src/tools/watch.ts:176-194`: runs the nx
publish; a failure carrying the benign signature is logged as a skip,
any other failure as a warning.  Never throws. -/
def publishPackages (r : ExecResult) : List String :=
  match r with
  | .ok _ =>
      ["📦 Publishing packages to local registry...",
       "✅ All packages published successfully!"]
  | .error e =>
      ["📦 Publishing packages to local registry..."]
        ++ (if benignPublishError e.message then
              ["⚠️  Packages already exist at this version, skipping publish"]
            else
              ["⚠️  Publish completed with warnings"])

/-! ### Pipeline runner (`rebuild`) -/

/-- The daemon's mutable state: the `isRebuilding` flag and the armed
debounce timer.  `rebuildTimer = some d` means a pending (not yet fired)
timeout with deadline `d`; a fired or cleared timeout is `none` (the
stale JS handle left in the variable after firing can never fire again,
so it carries no information). -/
structure DaemonState where
  isRebuilding : Bool
  rebuildTimer : Option Nat
deriving DecidableEq, Repr

/-- What one call to `rebuild` did: the log lines it printed, which
pipeline steps it invoked, and whether an exception escaped it
(`fatal`).  The `try/catch` in `rebuild` converts every thrown error
into a log line, so `fatal` is `none` in every branch. -/
structure RunTrace where
  logs : List String
  buildRan : Bool
  unpublishRan : Bool
  publishRan : Bool
  fatal : Option String
deriving DecidableEq, Repr

def RunTrace.empty : RunTrace :=
  { logs := [], buildRan := false, unpublishRan := false,
    publishRan := false, fatal := none }

/-- `rebuild` from `src/tools/watch.ts:211-230`: the single-flight guard,
then `try { build; unpublish; publish } catch { log } finally
{ isRebuilding = false }`.  Only `buildLibraries` can throw, so the
catch branch is reached exactly on build failure, and the finally
clause resets the flag on every path that actually ran. -/
def rebuild (env : PipelineEnv) (s : DaemonState) : DaemonState × RunTrace :=
  if s.isRebuilding then
    (s, { logs := ["⏳ Rebuild already in progress..."],
          buildRan := false, unpublishRan := false, publishRan := false,
          fatal := none })
  else
    let (buildLogs, thrown) := buildLibraries env.build
    match thrown with
    | some msg =>
        ({ s with isRebuilding := false },
         { logs := ["🔄 Rebuilding and republishing..."] ++ buildLogs
             ++ ["❌ Rebuild failed: " ++ msg],
           buildRan := true, unpublishRan := false, publishRan := false,
           fatal := none })
    | none =>
        ({ s with isRebuilding := false },
         { logs := ["🔄 Rebuilding and republishing..."] ++ buildLogs
             ++ cleanRegistry env.unpublish
             ++ publishPackages env.publish
             ++ ["✨ Rebuild complete!"],
           buildRan := true, unpublishRan := true, publishRan := true,
           fatal := none })

/-! ### Debouncer and timer events -/

/-- `debounce` from `src/tools/watch.ts:55-60`: clear the pending timeout
if one is armed, then arm a fresh one. -/
def debounce (timer : Option Nat) (deadline : Nat) : Option Nat :=
  match timer with
  | some _ => some deadline
  | none => some deadline

/-- The debounce timer fires: the timeout is consumed, and the scheduled
action `() => { if (!isRebuilding) rebuild(); }` from
`src/tools/watch.ts:80-84` runs. -/
def fireTimer (env : PipelineEnv) (s : DaemonState) : DaemonState × RunTrace :=
  let s0 : DaemonState := { s with rebuildTimer := none }
  if !s0.isRebuilding then rebuild env s0 else (s0, RunTrace.empty)

/-- Timed event loop for a burst of accepted file-change events: given the
(ordered) arrival times and the currently armed deadline, return the
times at which the debounce timer actually fires.  An armed deadline
`d` fires before an event at time `e` iff `d ≤ e`; each event calls
`debounce` with deadline `e + delay` (`delay` = 1000 ms in the code). -/
def burstRun (delay : Nat) : List Nat → Option Nat → List Nat
  | [], none => []
  | [], some d => [d]
  | e :: es, none => burstRun delay es (debounce none (e + delay))
  | e :: es, some d =>
      if d ≤ e then d :: burstRun delay es (debounce (some d) (e + delay))
      else burstRun delay es (debounce (some d) (e + delay))

/-! ### Registry supervisor (`startVerdaccio`) and daemon boot

The health check polls the local registry ping endpoint (port 4873)
once per second.
`resp a` is the oracle for attempt number `a` (numbered from 1 as in the
source): `some code` is an HTTP response with that status, `none` a
connection error. -/

/-- The `while (attempts < maxAttempts)` polling loop of
`src/tools/watch.ts:121-146`, recursing on the remaining attempts:
return on the first attempt whose status is 200, otherwise keep
retrying, and throw `Verdaccio failed to start` when the budget is
exhausted.  The returned value is the successful attempt number. -/
def healthLoop (resp : Nat → Option Nat) : Nat → Nat → Except String Nat
  | _, 0 => .error "Verdaccio failed to start"
  | attempt, remaining + 1 =>
      if resp attempt = some 200 then .ok attempt
      else healthLoop resp (attempt + 1) remaining

/-- What the `spawn` of the registry reported: either no error event, or
an error event carrying a message. -/
inductive SpawnEvent where
  | ok
  | errorEvent (message : String)
deriving DecidableEq, Repr

/-- The spawn-error classification of `src/tools/watch.ts:113-118`: the
`'error'` handler rethrows every error whose message lacks the
`EADDRINUSE` signature (`.error m` here); on an `EADDRINUSE` error, or
with no error event at all, the main flow polls with 30 attempts
starting at attempt 1.  How a rethrown error terminates the daemon is
modelled in `startWatchMode`: in the canonical source the rethrow
happens on the event-loop stack and is an *uncaught* exception. -/
def startVerdaccio (ev : SpawnEvent) (resp : Nat → Option Nat) : Except String Nat :=
  match ev with
  | .ok => healthLoop resp 1 30
  | .errorEvent m =>
      if !(jsIncludes m "EADDRINUSE") then .error m
      else healthLoop resp 1 30

/-- Outcome of the daemon boot sequence. -/
structure StartResult where
  exitCode : Option Nat
  watchersSetUp : Bool
  verdaccioKilled : Bool
  logs : List String
deriving DecidableEq, Repr

/-- The boot sequence after the registry spawn itself raised no uncaught
exception (`src/tools/watch.ts:232-257` from the health-check wait on):
poll the registry, run the pipeline once, then set up the file
watchers; an error thrown on this main async flow (health-check
exhaustion, or a build failure) is a promise rejection caught by the
boot `try`, which logs `Fatal:`, kills the child process, and exits
with code 1.  `spawnLogs` carries the log line the `'error'` event
handler printed, if the event fired. -/
def bootAfterSpawn (spawnLogs : List String) (resp : Nat → Option Nat)
    (env : PipelineEnv) : StartResult :=
  match healthLoop resp 1 30 with
  | .error msg =>
      { exitCode := some 1, watchersSetUp := false, verdaccioKilled := true,
        logs := ["🚀 Starting watch mode for library development"]
          ++ spawnLogs ++ ["Fatal: " ++ msg] }
  | .ok _ =>
      let (buildLogs, thrown) := buildLibraries env.build
      match thrown with
      | some msg =>
          { exitCode := some 1, watchersSetUp := false, verdaccioKilled := true,
            logs := ["🚀 Starting watch mode for library development"]
              ++ spawnLogs ++ ["✅ Verdaccio is ready!"] ++ buildLogs
              ++ ["Fatal: " ++ msg] }
      | none =>
          { exitCode := none, watchersSetUp := true, verdaccioKilled := false,
            logs := ["🚀 Starting watch mode for library development"]
              ++ spawnLogs ++ ["✅ Verdaccio is ready!"] ++ buildLogs
              ++ cleanRegistry env.unpublish
              ++ publishPackages env.publish
              ++ ["Watch mode ready!"] }

/-- `startWatchMode` from `src/tools/watch.ts:232-257` together with the
spawn `'error'` handler of lines 113-118.  A non-`EADDRINUSE` spawn
error is rethrown *inside the event handler*: that throw runs on the
event-loop stack, is never caught by the boot `try/catch`, and crashes
the process as an uncaught exception — exit code 1, but
`killChildProcesses()` does not run and no `Fatal:` line is logged
(only the handler's own `Verdaccio process error:` line).  Every other
path proceeds on the main async flow (`bootAfterSpawn`), whose errors
are rejections caught by the boot `try`. -/
def startWatchMode (ev : SpawnEvent) (resp : Nat → Option Nat)
    (env : PipelineEnv) : StartResult :=
  match ev with
  | .ok => bootAfterSpawn [] resp env
  | .errorEvent m =>
      if !(jsIncludes m "EADDRINUSE") then
        { exitCode := some 1, watchersSetUp := false, verdaccioKilled := false,
          logs := ["🚀 Starting watch mode for library development",
                   "Verdaccio process error: " ++ m] }
      else
        bootAfterSpawn ["Verdaccio process error: " ++ m] resp env


/-! ### Pattern-matcher lemmas -/

theorem amatch_atomOf (c : Char) : amatch (atomOf c) c = true := by
  by_cases h : c = '.'
  · subst h; decide
  · simp [atomOf, amatch, h]

theorem matchHere_litToks_of_leading (cs : List Char) :
    ∀ s : List Char, isPrefixOfCL cs s = true →
      matchHere (cs.map fun c => RTok.atom (atomOf c)) s = true := by
  induction cs with
  | nil => intro s _; simp [matchHere]
  | cons a as ih =>
      intro s hp
      cases s with
      | nil => simp [isPrefixOfCL] at hp
      | cons b bs =>
          simp only [isPrefixOfCL, Bool.and_eq_true, beq_iff_eq] at hp
          obtain ⟨rfl, hp⟩ := hp
          simp only [List.map_cons, matchHere, Bool.and_eq_true]
          exact ⟨amatch_atomOf a, ih bs hp⟩

theorem regexSearch_litToks_of_contained (cs : List Char) :
    ∀ s : List Char, isInfixOfCL cs s = true →
      regexSearch (cs.map fun c => RTok.atom (atomOf c)) s = true := by
  intro s
  induction s with
  | nil =>
      intro h
      simp only [isInfixOfCL] at h
      simpa [regexSearch] using matchHere_litToks_of_leading cs [] h
  | cons c cs' ih =>
      intro h
      simp only [isInfixOfCL, Bool.or_eq_true] at h
      rcases h with h | h
      · simp only [regexSearch, Bool.or_eq_true]
        exact Or.inl (matchHere_litToks_of_leading cs (c :: cs') h)
      · simp only [regexSearch, Bool.or_eq_true]
        exact Or.inr (ih h)

theorem matchHere_star_of_matchHere (ts : List RTok) (a : RAtom) (s : List Char)
    (h : matchHere ts s = true) : matchHere (RTok.star a :: ts) s = true := by
  cases s with
  | nil => simpa [matchHere, starMatch] using h
  | cons c cs => simp [matchHere, starMatch, h]

theorem regexSearch_star_of_regexSearch (ts : List RTok) (a : RAtom) :
    ∀ s : List Char, regexSearch ts s = true →
      regexSearch (RTok.star a :: ts) s = true := by
  intro s
  induction s with
  | nil =>
      intro h
      simp only [regexSearch] at h ⊢
      exact matchHere_star_of_matchHere ts a [] h
  | cons c cs ih =>
      intro h
      simp only [regexSearch, Bool.or_eq_true] at h ⊢
      rcases h with h | h
      · exact Or.inl (matchHere_star_of_matchHere ts a (c :: cs) h)
      · exact Or.inr (ih h)

theorem isInfixOfCL_cons (p : List Char) (c : Char) (l : List Char)
    (h : isInfixOfCL p l = true) : isInfixOfCL p (c :: l) = true := by
  simp [isInfixOfCL, h]

theorem isInfixOfCL_of_drop (p : List Char) :
    ∀ (i : Nat) (l : List Char), isInfixOfCL p (l.drop i) = true →
      isInfixOfCL p l = true := by
  intro i
  induction i with
  | zero => intro l h; simpa using h
  | succ n ih =>
      intro l h
      cases l with
      | nil => simpa using h
      | cons c l' =>
          simp only [List.drop_succ_cons] at h
          exact isInfixOfCL_cons p c l' (ih l' h)

theorem specWildcardMatch_star (suf : List Char) (path : List Char)
    (h : specWildcardMatch ('*' :: suf) path = true) :
    isInfixOfCL suf path = true := by
  have h' : ((List.range (path.length + 1)).any fun i =>
      isInfixOfCL suf (path.drop i)) = true := h
  simp only [List.any_eq_true, List.mem_range] at h'
  obtain ⟨i, _, hinf⟩ := h'
  exact isInfixOfCL_of_drop suf i path hinf

theorem specGlobHit_implies_regexHit (p : String) (h : specGlobHit p = true) :
    wildcardRegexHit p = true := by
  simp only [specGlobHit, wildcardRules, List.any_eq_true, List.mem_cons,
    List.not_mem_nil, or_false] at h
  obtain ⟨pat, hmem, hmatch⟩ := h
  simp only [wildcardRegexHit, wildcardRules, List.any_eq_true, List.mem_cons,
    List.not_mem_nil, or_false]
  refine ⟨pat, hmem, ?_⟩
  rcases hmem with rfl | rfl | rfl | rfl
  · have htrans : parseRegex (replaceFirstStar ("*.spec.ts").data) =
        RTok.star .anyChar :: ((".spec.ts").data.map fun c => RTok.atom (atomOf c)) := by
      decide
    rw [htrans]
    exact regexSearch_star_of_regexSearch _ _ p.data
      (regexSearch_litToks_of_contained _ p.data (specWildcardMatch_star (".spec.ts").data p.data hmatch))
  · have htrans : parseRegex (replaceFirstStar ("*.spec.js").data) =
        RTok.star .anyChar :: ((".spec.js").data.map fun c => RTok.atom (atomOf c)) := by
      decide
    rw [htrans]
    exact regexSearch_star_of_regexSearch _ _ p.data
      (regexSearch_litToks_of_contained _ p.data (specWildcardMatch_star (".spec.js").data p.data hmatch))
  · have htrans : parseRegex (replaceFirstStar ("*.test.ts").data) =
        RTok.star .anyChar :: ((".test.ts").data.map fun c => RTok.atom (atomOf c)) := by
      decide
    rw [htrans]
    exact regexSearch_star_of_regexSearch _ _ p.data
      (regexSearch_litToks_of_contained _ p.data (specWildcardMatch_star (".test.ts").data p.data hmatch))
  · have htrans : parseRegex (replaceFirstStar ("*.test.js").data) =
        RTok.star .anyChar :: ((".test.js").data.map fun c => RTok.atom (atomOf c)) := by
      decide
    rw [htrans]
    exact regexSearch_star_of_regexSearch _ _ p.data
      (regexSearch_litToks_of_contained _ p.data (specWildcardMatch_star (".test.js").data p.data hmatch))

/-! ### Debounce-loop lemmas -/

theorem burstRun_armed (delay : Nat) :
    ∀ (ts : List Nat) (t : Nat),
      List.Chain' (fun a b => a ≤ b ∧ b < a + delay) (t :: ts) →
      burstRun delay ts (some (t + delay)) = [ts.getLastD t + delay] := by
  intro ts
  induction ts with
  | nil => intro t _; rfl
  | cons e es ih =>
      intro t hch
      rw [List.chain'_cons] at hch
      obtain ⟨⟨hle, hlt⟩, hch⟩ := hch
      have hnot : ¬ (t + delay ≤ e) := by omega
      show (if t + delay ≤ e then
              (t + delay) :: burstRun delay es (debounce (some (t + delay)) (e + delay))
            else burstRun delay es (debounce (some (t + delay)) (e + delay))) = _
      rw [if_neg hnot]
      show burstRun delay es (some (e + delay)) = _
      rw [List.getLastD_cons]
      exact ih e hch

/-! ### Health-check lemmas -/

theorem healthLoop_fail (resp : Nat → Option Nat) :
    ∀ (remaining attempt : Nat),
      (∀ a, attempt ≤ a → a < attempt + remaining → resp a ≠ some 200) →
      healthLoop resp attempt remaining = .error "Verdaccio failed to start" := by
  intro remaining
  induction remaining with
  | zero => intro attempt _; rfl
  | succ n ih =>
      intro attempt h
      have h0 : resp attempt ≠ some 200 := h attempt le_rfl (by omega)
      show (if resp attempt = some 200 then Except.ok attempt
            else healthLoop resp (attempt + 1) n) = _
      rw [if_neg h0]
      exact ih (attempt + 1) fun a ha1 ha2 => h a (by omega) (by omega)

theorem healthLoop_ok (resp : Nat → Option Nat) :
    ∀ (remaining attempt : Nat),
      (∃ a, attempt ≤ a ∧ a < attempt + remaining ∧ resp a = some 200) →
      ∃ b, healthLoop resp attempt remaining = .ok b := by
  intro remaining
  induction remaining with
  | zero => intro attempt ⟨a, h1, h2, _⟩; omega
  | succ n ih =>
      intro attempt h
      by_cases h0 : resp attempt = some 200
      · refine ⟨attempt, ?_⟩
        show (if resp attempt = some 200 then Except.ok attempt
              else healthLoop resp (attempt + 1) n) = _
        rw [if_pos h0]
      · obtain ⟨a, h1, h2, h3⟩ := h
        have ha : attempt + 1 ≤ a := by
          rcases Nat.eq_or_lt_of_le h1 with rfl | hlt
          · exact absurd h3 h0
          · omega
        have : ∃ b, healthLoop resp (attempt + 1) n = .ok b :=
          ih (attempt + 1) ⟨a, ha, by omega, h3⟩
        obtain ⟨b, hb⟩ := this
        refine ⟨b, ?_⟩
        show (if resp attempt = some 200 then Except.ok attempt
              else healthLoop resp (attempt + 1) n) = _
        rw [if_neg h0]
        exact hb

/-! ### Claim theorems -/

/-- C1: for every call to `rebuild` while the rebuild state is
in-progress, the call logs `Rebuild already in progress` and returns
immediately with the state unchanged and none of the build, unpublish
or publish steps invoked — the single-flight guard.  Since the daemon
is single-threaded and `rebuild` runs to completion atomically, this
guard is what prevents a second concurrent pipeline execution. -/
theorem c1_single_flight_guard (env : PipelineEnv) (s : DaemonState)
    (h : s.isRebuilding = true) :
    (rebuild env s).1 = s ∧
    (rebuild env s).2.logs = ["⏳ Rebuild already in progress..."] ∧
    (rebuild env s).2.buildRan = false ∧
    (rebuild env s).2.unpublishRan = false ∧
    (rebuild env s).2.publishRan = false := by
  simp [rebuild, h]

theorem c1_single_flight_guard_witness :
    (rebuild ⟨.ok "", .ok "", .ok ""⟩ ⟨true, none⟩).1 = ⟨true, none⟩ ∧
    (rebuild ⟨.ok "", .ok "", .ok ""⟩ ⟨true, none⟩).2.buildRan = false := by
  have h := c1_single_flight_guard ⟨.ok "", .ok "", .ok ""⟩ ⟨true, none⟩ rfl
  exact ⟨h.1, h.2.2.1⟩

/-- C2: for a burst of one or more accepted file-change events in which
consecutive events are less than `delay` apart (and arrive in order),
the debounce timer fires exactly once, `delay` after the last event of
the burst: each event's `debounce` call cancels the pending timer and
arms a fresh one, so only the final deadline survives. -/
theorem c2_debounce_collapses_bursts (delay : Nat) (t : Nat) (ts : List Nat)
    (h : List.Chain' (fun a b => a ≤ b ∧ b < a + delay) (t :: ts)) :
    burstRun delay (t :: ts) none = [ts.getLastD t + delay] := by
  show burstRun delay ts (some (t + delay)) = _
  exact burstRun_armed delay ts t h

theorem c2_debounce_collapses_bursts_witness :
    burstRun 1000 [0, 200, 900] none = [1900] := by
  have h := c2_debounce_collapses_bursts 1000 0 [200, 900]
    (by norm_num [List.chain'_cons])
  simpa using h

/-- C3: whatever the three step outcomes are, a pipeline run started from
the idle state leaves `isRebuilding = false` when it finishes — the
`finally`-style cleanup is unconditional, so a failing run never
wedges the daemon in the in-progress state. -/
theorem c3_finally_resets_state (env : PipelineEnv) (s : DaemonState)
    (h : s.isRebuilding = false) :
    ((rebuild env s).1).isRebuilding = false := by
  simp only [rebuild, h, Bool.false_eq_true, if_false]
  rcases buildLibraries env.build with ⟨logs, _ | msg⟩ <;> rfl

theorem c3_finally_resets_state_witness :
    ((rebuild ⟨.error ⟨"boom", 1, "", ""⟩, .ok "", .ok ""⟩ ⟨false, none⟩).1).isRebuilding = false :=
  c3_finally_resets_state ⟨.error ⟨"boom", 1, "", ""⟩, .ok "", .ok ""⟩ ⟨false, none⟩ rfl

/-- C4: when the build step fails, the run aborts immediately: unpublish
and publish are not invoked, the failure is surfaced as a logged
`Rebuild failed` line, the rebuild state is reset to idle, and no
exception escapes `rebuild` (so the daemon process does not exit). -/
theorem c4_build_failure_aborts_run (e : ExecError) (u p : ExecResult)
    (s : DaemonState) (h : s.isRebuilding = false) :
    (rebuild ⟨.error e, u, p⟩ s).2.buildRan = true ∧
    (rebuild ⟨.error e, u, p⟩ s).2.unpublishRan = false ∧
    (rebuild ⟨.error e, u, p⟩ s).2.publishRan = false ∧
    ("❌ Rebuild failed: " ++ ("Build failed: " ++ e.message)) ∈ (rebuild ⟨.error e, u, p⟩ s).2.logs ∧
    ((rebuild ⟨.error e, u, p⟩ s).1).isRebuilding = false ∧
    (rebuild ⟨.error e, u, p⟩ s).2.fatal = none := by
  simp [rebuild, h, buildLibraries]

theorem c4_build_failure_aborts_run_witness :
    (rebuild ⟨.error ⟨"tsc exited 2", 2, "", ""⟩, .ok "", .ok ""⟩ ⟨false, none⟩).2.unpublishRan = false ∧
    ("❌ Rebuild failed: " ++ ("Build failed: " ++ "tsc exited 2")) ∈
      (rebuild ⟨.error ⟨"tsc exited 2", 2, "", ""⟩, .ok "", .ok ""⟩ ⟨false, none⟩).2.logs := by
  have h := c4_build_failure_aborts_run ⟨"tsc exited 2", 2, "", ""⟩ (.ok "") (.ok "") ⟨false, none⟩ rfl
  exact ⟨h.2.1, h.2.2.2.1⟩

/-- C5 counterexample: `shouldIgnore "aspecbts"` is `true`, although
`"aspecbts"` contains none of the literal patterns as a substring and
matches none of the wildcard patterns read as a single-wildcard glob
(spec-side `specWildcardMatch`, in which `.` only matches itself).
The code's `new RegExp(pattern.replace('*', '.*'))` leaves the other
`.` characters of the pattern with their regex meaning "any
character", so `.spec.ts` also matches the substring `aspecbts`. -/
theorem c5_counterexample :
    shouldIgnore "aspecbts" = true ∧
    (IGNORED_PATTERNS.all fun pat =>
      if pat.data.contains '*' then !(specWildcardMatch pat.data "aspecbts".data)
      else !(jsIncludes "aspecbts" pat)) = true := by
  exact ⟨by decide, by decide⟩

/-- C5 (amended): `shouldIgnore p` is `true` iff `p` contains one of the
literal patterns as a substring, or `p` matches the regex translation
of one of the wildcard patterns — in which `*` becomes `.*` and the
remaining `.` characters also match any single character (so strictly
more paths are ignored than under a glob reading of the wildcard
patterns); every path matching a wildcard pattern read as a glob is
still always ignored. -/
theorem c5_shouldIgnore_characterization (p : String) :
    (shouldIgnore p = true ↔ (literalHit p = true ∨ wildcardRegexHit p = true)) ∧
    (specGlobHit p = true → shouldIgnore p = true) := by
  have hiff : shouldIgnore p = true ↔ (literalHit p = true ∨ wildcardRegexHit p = true) := by
    simp [shouldIgnore, IGNORED_PATTERNS, literalHit, literalRules,
      wildcardRegexHit, wildcardRules]
    tauto
  exact ⟨hiff, fun h => hiff.mpr (Or.inr (specGlobHit_implies_regexHit p h))⟩

theorem c5_shouldIgnore_characterization_witness :
    shouldIgnore "foo.spec.ts" = true :=
  (c5_shouldIgnore_characterization "foo.spec.ts").2 (by decide)

/-- C6: when the publish step fails with the known benign signature, the
run logs the skip message and completes normally; on any other publish
failure it logs the warning; in both cases the run reaches its normal
completion log, no exception escapes `rebuild`, and the state returns
to idle — the daemon process does not exit. -/
theorem c6_publish_failure_is_benign (o : String) (u : ExecResult)
    (e : ExecError) (s : DaemonState) (h : s.isRebuilding = false) :
    (benignPublishError e.message = true →
      "⚠️  Packages already exist at this version, skipping publish" ∈
        (rebuild ⟨.ok o, u, .error e⟩ s).2.logs) ∧
    (benignPublishError e.message = false →
      "⚠️  Publish completed with warnings" ∈
        (rebuild ⟨.ok o, u, .error e⟩ s).2.logs) ∧
    "✨ Rebuild complete!" ∈ (rebuild ⟨.ok o, u, .error e⟩ s).2.logs ∧
    (rebuild ⟨.ok o, u, .error e⟩ s).2.fatal = none ∧
    ((rebuild ⟨.ok o, u, .error e⟩ s).1).isRebuilding = false := by
  refine ⟨?_, ?_, ?_, ?_, ?_⟩
  · intro hb
    simp [rebuild, h, buildLibraries, publishPackages, hb]
  · intro hb
    simp [rebuild, h, buildLibraries, publishPackages, hb]
  · simp [rebuild, h, buildLibraries]
  · simp [rebuild, h, buildLibraries]
  · simp [rebuild, h, buildLibraries]

theorem c6_publish_failure_is_benign_witness :
    ("⚠️  Packages already exist at this version, skipping publish" ∈
      (rebuild ⟨.ok "", .ok "", .error ⟨"error: You cannot publish over the previously published versions", 1, "", ""⟩⟩ ⟨false, none⟩).2.logs) ∧
    ("⚠️  Publish completed with warnings" ∈
      (rebuild ⟨.ok "", .ok "", .error ⟨"ECONNRESET", 1, "", ""⟩⟩ ⟨false, none⟩).2.logs) := by
  constructor
  · exact (c6_publish_failure_is_benign "" (.ok "")
      ⟨"error: You cannot publish over the previously published versions", 1, "", ""⟩
      ⟨false, none⟩ rfl).1 (by decide)
  · exact ((c6_publish_failure_is_benign "" (.ok "")
      ⟨"ECONNRESET", 1, "", ""⟩ ⟨false, none⟩ rfl).2.1) (by decide)

/-- C8: any failure of the unpublish step is swallowed inside
`cleanRegistry`: the run still invokes the publish step, logs the
`No previous packages to clean up` line, finishes with the state back
to idle, and no exception escapes `rebuild`. -/
theorem c8_unpublish_failure_swallowed (o : String) (e : ExecError)
    (p : ExecResult) (s : DaemonState) (h : s.isRebuilding = false) :
    (rebuild ⟨.ok o, .error e, p⟩ s).2.unpublishRan = true ∧
    (rebuild ⟨.ok o, .error e, p⟩ s).2.publishRan = true ∧
    "📦 No previous packages to clean up (this is normal on first run)" ∈
      (rebuild ⟨.ok o, .error e, p⟩ s).2.logs ∧
    ((rebuild ⟨.ok o, .error e, p⟩ s).1).isRebuilding = false ∧
    (rebuild ⟨.ok o, .error e, p⟩ s).2.fatal = none := by
  simp [rebuild, h, buildLibraries, cleanRegistry]

theorem c8_unpublish_failure_swallowed_witness :
    (rebuild ⟨.ok "", .error ⟨"nothing to unpublish", 1, "", "err"⟩, .ok ""⟩ ⟨false, none⟩).2.publishRan = true ∧
    "📦 No previous packages to clean up (this is normal on first run)" ∈
      (rebuild ⟨.ok "", .error ⟨"nothing to unpublish", 1, "", "err"⟩, .ok ""⟩ ⟨false, none⟩).2.logs := by
  have h := c8_unpublish_failure_swallowed "" ⟨"nothing to unpublish", 1, "", "err"⟩ (.ok "") ⟨false, none⟩ rfl
  exact ⟨h.2.1, h.2.2.1⟩

/-- C10: when the debounce timer fires while a rebuild is in progress,
the guarded action does nothing: the daemon state is unchanged apart
from the consumed timer, no pipeline step runs, nothing is logged, and
with the timer slot now empty no further fire can occur until a new
file-change event arms a fresh timer. -/
theorem c10_fire_during_rebuild_dropped (env : PipelineEnv) (s : DaemonState)
    (h : s.isRebuilding = true) :
    (fireTimer env s).1 = { s with rebuildTimer := none } ∧
    (fireTimer env s).2.logs = [] ∧
    (fireTimer env s).2.buildRan = false ∧
    (fireTimer env s).2.unpublishRan = false ∧
    (fireTimer env s).2.publishRan = false ∧
    burstRun 1000 [] (fireTimer env s).1.rebuildTimer = [] := by
  simp [fireTimer, h, RunTrace.empty, burstRun]

theorem c10_fire_during_rebuild_dropped_witness :
    (fireTimer ⟨.ok "", .ok "", .ok ""⟩ ⟨true, some 5⟩).1 = ⟨true, none⟩ ∧
    (fireTimer ⟨.ok "", .ok "", .ok ""⟩ ⟨true, some 5⟩).2.buildRan = false := by
  have h := c10_fire_during_rebuild_dropped ⟨.ok "", .ok "", .ok ""⟩ ⟨true, some 5⟩ rfl
  exact ⟨h.1, h.2.2.1⟩

/-- C7: if no health-check attempt in the 30-attempt budget returns
status 200, `startVerdaccio` throws `Verdaccio failed to start` and
the boot sequence exits with code 1 after killing the child process,
never setting up the file watchers; and whenever some attempt within
the budget does return 200, the registry startup succeeds. -/
theorem c7_health_check_bound (resp : Nat → Option Nat) (env : PipelineEnv)
    (h : ∀ a, 1 ≤ a → a ≤ 30 → resp a ≠ some 200) :
    startVerdaccio .ok resp = .error "Verdaccio failed to start" ∧
    (startWatchMode .ok resp env).exitCode = some 1 ∧
    (startWatchMode .ok resp env).watchersSetUp = false ∧
    (startWatchMode .ok resp env).verdaccioKilled = true ∧
    (∀ resp' : Nat → Option Nat,
      (∃ a, 1 ≤ a ∧ a ≤ 30 ∧ resp' a = some 200) →
      ∃ b, startVerdaccio .ok resp' = .ok b) := by
  have hh : healthLoop resp 1 30 = .error "Verdaccio failed to start" :=
    healthLoop_fail resp 30 1 fun a h1 h2 => h a h1 (by omega)
  refine ⟨hh, ?_, ?_, ?_, ?_⟩
  · simp [startWatchMode, bootAfterSpawn, hh]
  · simp [startWatchMode, bootAfterSpawn, hh]
  · simp [startWatchMode, bootAfterSpawn, hh]
  · rintro resp' ⟨a, h1, h2, h3⟩
    exact healthLoop_ok resp' 30 1 ⟨a, h1, by omega, h3⟩

theorem c7_health_check_bound_witness :
    (startWatchMode .ok (fun _ => none) ⟨.ok "", .ok "", .ok ""⟩).exitCode = some 1 ∧
    (∃ b, startVerdaccio .ok (fun _ => some 200) = .ok b) := by
  have h := c7_health_check_bound (fun _ => none) ⟨.ok "", .ok "", .ok ""⟩
    (fun a _ _ => by simp)
  exact ⟨h.2.1, h.2.2.2.2 (fun _ => some 200) ⟨1, le_rfl, by omega, rfl⟩⟩

/-- C9: a registry spawn error whose message contains `EADDRINUSE` is
non-fatal — startup proceeds to exactly the same health-check loop as
the no-error case, and succeeds if an already-running instance
responds 200 within the budget; a spawn error without that signature
is rethrown inside the event handler, which crashes the daemon as an
uncaught exception: exit code 1 and no watchers, but with no
`killChildProcesses()` call and no `Fatal:` log line — only the
handler's own `Verdaccio process error:` line is printed. -/
theorem c9_spawn_error_classification (resp : Nat → Option Nat) (m : String)
    (env : PipelineEnv) :
    (jsIncludes m "EADDRINUSE" = true →
      startVerdaccio (.errorEvent m) resp = healthLoop resp 1 30) ∧
    (jsIncludes m "EADDRINUSE" = true →
      (∃ a, 1 ≤ a ∧ a ≤ 30 ∧ resp a = some 200) →
      ∃ b, startVerdaccio (.errorEvent m) resp = .ok b) ∧
    (jsIncludes m "EADDRINUSE" = false →
      startVerdaccio (.errorEvent m) resp = .error m ∧
      (startWatchMode (.errorEvent m) resp env).exitCode = some 1 ∧
      (startWatchMode (.errorEvent m) resp env).watchersSetUp = false ∧
      (startWatchMode (.errorEvent m) resp env).verdaccioKilled = false ∧
      (startWatchMode (.errorEvent m) resp env).logs =
        ["🚀 Starting watch mode for library development",
         "Verdaccio process error: " ++ m]) := by
  refine ⟨?_, ?_, ?_⟩
  · intro hb
    simp [startVerdaccio, hb]
  · rintro hb ⟨a, h1, h2, h3⟩
    have heq : startVerdaccio (.errorEvent m) resp = healthLoop resp 1 30 := by
      simp [startVerdaccio, hb]
    rw [heq]
    exact healthLoop_ok resp 30 1 ⟨a, h1, by omega, h3⟩
  · intro hb
    have hsv : startVerdaccio (.errorEvent m) resp = .error m := by
      simp [startVerdaccio, hb]
    exact ⟨hsv, by simp [startWatchMode, hb], by simp [startWatchMode, hb],
      by simp [startWatchMode, hb], by simp [startWatchMode, hb]⟩

theorem c9_spawn_error_classification_witness :
    (∃ b, startVerdaccio
      (.errorEvent "listen EADDRINUSE: address already in use :::4873")
      (fun _ => some 200) = .ok b) ∧
    (startWatchMode (.errorEvent "spawn npx ENOENT") (fun _ => some 200)
      ⟨.ok "", .ok "", .ok ""⟩).exitCode = some 1 := by
  constructor
  · exact (c9_spawn_error_classification (fun _ => some 200)
      "listen EADDRINUSE: address already in use :::4873"
      ⟨.ok "", .ok "", .ok ""⟩).2.1 (by decide) ⟨1, le_rfl, by omega, rfl⟩
  · exact ((c9_spawn_error_classification (fun _ => some 200) "spawn npx ENOENT"
      ⟨.ok "", .ok "", .ok ""⟩).2.2 (by decide)).2.1

end Watch
